import Mathlib

/-!
Shallow embedding of the `aiocache` library (src/aiocache/cache.py,
src/aiocache/decorator.py, src/aiocache/key.py) and proofs about the
claims on its behaviour.

Timestamps and durations are wall-clock seconds (Python floats); we embed
them as integers, which carries all the ordering/addition structure the
claims use.  Cache keys are byte strings; we embed them as `String`.
The in-memory backend's `self._data` dict is embedded as an association
list with at most the usual Python-dict lookup/replace/delete semantics.
-/

namespace Aiocache

abbrev Time := Int

abbrev Key := String

/-- A Python dict is embedded as an association list; `lookupKey` is
`d[key]` returning `none` where Python raises `KeyError`. -/
def lookupKey {β : Type} : List (Key × β) → Key → Option β
  | [], _ => Option.none
  | (k0, b) :: rest, k => if k = k0 then some b else lookupKey rest k

/-- Python dict assignment `d[key] = b`: replaces the existing binding in
place, otherwise appends a new one. -/
def insertReplace {β : Type} : List (Key × β) → Key → β → List (Key × β)
  | [], k, b => [(k, b)]
  | (k0, b0) :: rest, k, b =>
    if k = k0 then (k, b) :: rest else (k0, b0) :: insertReplace rest k b

/-- Python dict deletion `del d[key]` once the key is known present. -/
def eraseKey {β : Type} : List (Key × β) → Key → List (Key × β)
  | [], _ => []
  | (k0, b0) :: rest, k => if k = k0 then rest else (k0, b0) :: eraseKey rest k

/-- State of `DictCache._data`: each key maps to `(value, expires_at)`,
where `expires_at = none` means never-expiring. -/
abbrev Store (α : Type) := List (Key × α × Option Time)

/-- The liveness test used throughout `cache.py`:
`expires_at is None or expires_at >= now`. -/
def liveAt (now : Time) (e : Option Time) : Bool :=
  match e with
  | Option.none => true
  | some x => decide (x ≥ now)

/-- Outcome of `DictCache.get`: the Python method returns the stored value
when the entry is live, implicitly returns Python `None` when the entry is
present but expired (the `if` falls through with no `raise`), and raises
`KeyError` only when `self._data[key]` itself fails. -/
inductive GetResult (α : Type) where
  | value (v : α)
  | pyNone
  | keyError
deriving DecidableEq, Repr

/-- Embeds `DictCache.get(self, key)` at clock time `now`. -/
def DictCache.get {α : Type} (s : Store α) (key : Key) (now : Time) : GetResult α :=
  match lookupKey s key with
  | Option.none => GetResult.keyError
  | some (v, e) => if liveAt now e then GetResult.value v else GetResult.pyNone

/-- Embeds `DictCache.put(self, key, value, ttl)` at clock time `now`:
`expires_at = ttl + now if ttl is not None else None`. -/
def DictCache.put {α : Type} (s : Store α) (key : Key) (v : α)
    (ttl : Option Time) (now : Time) : Store α :=
  insertReplace s key (v, ttl.map (fun t => t + now))

/-- Outcome of `DictCache.remove`: `del self._data[key]` raises `KeyError`
when the key is absent. -/
inductive RemoveResult (α : Type) where
  | ok (s : Store α)
  | keyError
deriving DecidableEq, Repr

/-- Embeds `DictCache.remove(self, key)`. -/
def DictCache.remove {α : Type} (s : Store α) (key : Key) : RemoveResult α :=
  match lookupKey s key with
  | Option.none => RemoveResult.keyError
  | some _ => RemoveResult.ok (eraseKey s key)

/-- Embeds `DictCache.remove_expired(self)` at clock time `now`: rebuilds
the dict keeping entries with `expires_at is None or expires_at >= now`. -/
def DictCache.remove_expired {α : Type} (s : Store α) (now : Time) : Store α :=
  s.filter (fun kve => liveAt now kve.2.2)

/-- Embeds `DictCache.data(self)` at clock time `now`: builds a fresh
key-to-value dict of the live entries; `self._data` is not assigned, so the
state component is returned unchanged. -/
def DictCache.data {α : Type} (s : Store α) (now : Time) :
    Store α × List (Key × α) :=
  (s, (s.filter (fun kve => liveAt now kve.2.2)).map (fun kve => (kve.1, kve.2.1)))

/-! TTL policy resolution, from src/aiocache/decorator.py. -/

/-- Python values that can be passed as the `ttl` argument of `cached`:
`None`, an `int`/`float`, a `datetime.timedelta` (carried as its
`total_seconds()`), a tuple, a function, or anything else. -/
inductive PyTtl where
  | none
  | num (n : Int)
  | timedelta (seconds : Int)
  | tuple (elems : List PyTtl)
  | func
  | other

/-- Embeds `_parse_timedelta(t)`: `None` and numbers pass through,
`timedelta` becomes `total_seconds()`, anything else raises `ValueError`. -/
def pyParseTimedelta : PyTtl → Except String (Option Int)
  | PyTtl.none => Except.ok Option.none
  | PyTtl.num n => Except.ok (some n)
  | PyTtl.timedelta s => Except.ok (some s)
  | _ => Except.error "Timedelta must be a None, Number or datetime.timedelta"

/-- The resolved TTL policy `lambda fn, args, kwargs, value: ...` returned
by `_parse_ttl_function`. `noCache` is the `ttl is None` branch (the source
comment reads "TTL is None: turn off caching"); `const` a constant
duration; `uniform` the jittered `random.uniform(ttl_min, ttl_max)` range.
The source's second `elif isinstance(ttl, tuple) and len(ttl) == 2` branch
(TTL as a function) repeats the guard of the previous branch and is
unreachable, so no constructor corresponds to it. -/
inductive TtlPolicy where
  | noCache
  | const (v : Int)
  | uniform (lo hi : Int)
deriving DecidableEq, Repr

/-- Evaluates the resolved policy for one call.  `r` stands for the value
sampled by `random.uniform(lo, hi)` in the jittered case; the other two
cases ignore it. -/
def TtlPolicy.apply : TtlPolicy → Int → Option Int
  | TtlPolicy.noCache, _ => Option.none
  | TtlPolicy.const v, _ => some v
  | TtlPolicy.uniform _ _, r => some r

/-- Embeds `_parse_ttl_function(ttl)`.  A function value reaches the final
`else` and raises `ValueError`, because the branch meant to accept it is
guarded by the same 2-element-tuple test as the range branch. -/
def pyParseTtlFunction : PyTtl → Except String TtlPolicy
  | PyTtl.none => Except.ok TtlPolicy.noCache
  | PyTtl.num n => Except.ok (TtlPolicy.const n)
  | PyTtl.timedelta s => Except.ok (TtlPolicy.const s)
  | PyTtl.tuple [a, b] =>
    match pyParseTimedelta a with
    | Except.error m => Except.error m
    | Except.ok lo =>
      match pyParseTimedelta b with
      | Except.error m => Except.error m
      | Except.ok hi =>
        match lo, hi with
        | some l, some h => Except.ok (TtlPolicy.uniform l h)
        | _, _ => Except.error "TTL range cannot be None"
  | _ =>
    Except.error "TTL must be a None, constant, tuple(constant_min, constant_max), or function(fn, args, kwargs, value)"

/-- The per-decorator state built by `cached(...)` that the claims use:
the resolved TTL policy.  (The source also captures the cache, the key
maker and the pending table.) -/
structure Memoizer where
  ttl : TtlPolicy
deriving DecidableEq, Repr

/-- Embeds the construction step of `cached(cache, key_maker, ttl)`: the
first statement of its body runs `_parse_ttl_function(ttl)`, before the
decorator or any wrapper exists, so a bad `ttl` fails here. -/
def cached (ttl : PyTtl) : Except String Memoizer :=
  match pyParseTtlFunction ttl with
  | Except.ok p => Except.ok (Memoizer.mk p)
  | Except.error m => Except.error m

/-- Embeds the body of `get_or_compute` in the wrapper, specialised to the
`DictCache` backend: `cache.get(key)` is tried first and only `KeyError`
is caught; on `KeyError` the wrapped function's value `fnValue` is computed
and stored with the policy's `value_ttl`.  Returns the new store and the
Python return value (`none` embeds Python `None`, which the expired-entry
path of `DictCache.get` produces). -/
def get_or_compute {α : Type} (s : Store α) (key : Key) (now : Time)
    (fnValue : α) (value_ttl : Option Time) : Store α × Option α :=
  match DictCache.get s key now with
  | GetResult.value v => (s, some v)
  | GetResult.pyNone => (s, Option.none)
  | GetResult.keyError => (DictCache.put s key fnValue value_ttl now, some fnValue)

/-! The single-flight pending table, from the wrapper in decorator.py.

The `ongoing` dict is consulted and updated only inside
`async with ongoing_lock`, so for one key the lookup-or-register steps of
concurrent invocations are serialized; awaiting `pending` happens outside
the lock.  We model the per-key lifecycle as a state machine: `flightArrive`
is one invocation executing the locked block (returning the task handle it
will await), `flightComplete` is the done-callback `ongoing.pop(key)`.
`created` records the tasks spawned via `asyncio.create_task`, i.e. the
executions of `get_or_compute`. -/

structure FlightState where
  pending : Option Nat
  nextId : Nat
  created : List Nat
deriving DecidableEq, Repr

/-- One invocation runs the locked lookup-or-register block: if a pending
task exists it is reused, otherwise a fresh task is created and registered.
Returns the task handle this invocation awaits. -/
def flightArrive (st : FlightState) : FlightState × Nat :=
  match st.pending with
  | some t => (st, t)
  | Option.none =>
    (⟨some st.nextId, st.nextId + 1, st.created ++ [st.nextId]⟩, st.nextId)

/-- The done-callback `ongoing.pop(key)` once the pending task finishes. -/
def flightComplete (st : FlightState) : FlightState :=
  ⟨Option.none, st.nextId, st.created⟩

/-- N invocations of the wrapper for the same key go through the locked
block one after another (no completion in between); returns the final
state and the task handle each invocation awaits, in order. -/
def flightArriveN : FlightState → Nat → FlightState × List Nat
  | st, 0 => (st, [])
  | st, n + 1 =>
    let (st1, t) := flightArrive st
    let (st2, ts) := flightArriveN st1 n
    (st2, t :: ts)

/-! The reference key maker, from src/aiocache/key.py. -/

/-- The callable identity `ReprKeyMaker.__call__` inspects: its
`__module__`, `__qualname__`, and `co_varnames[:co_argcount]` (the declared
parameter names). -/
structure PyFunc where
  module : String
  qualname : String
  argnames : List String
deriving DecidableEq, Repr

/-- Python `repr` of a plain identifier-like `str`, as produced for the
keyword names in `f"{repr(key)}: {repr(value)}"`. -/
def pyReprStr (s : String) : String := "\x27" ++ s ++ "\x27"

/-- Python `", ".join(parts)`. -/
def pyJoin : List String → String
  | [] => ""
  | [a] => a
  | a :: b :: rest => a ++ ", " ++ pyJoin (b :: rest)

/-- Embeds `ReprKeyMaker.__call__(fn, args, kwargs)` with the default
hooks (`hash=None`, `hash_args=False`).  Positional arguments are carried
as their `repr` strings, keyword arguments as (name, `repr` of value)
pairs in insertion order.  The Python method finally utf-8-encodes the key;
we keep the string. -/
def ReprKeyMaker.call (fn : PyFunc) (args : List String)
    (kwargs : List (String × String)) : String :=
  let is_method : Bool :=
    match fn.argnames with
    | [] => false
    | a0 :: _ => a0 = "self" ∨ a0 = "cls"
  let args1 := if is_method then args.drop 1 else args
  let repr_all_args :=
    pyJoin (args1 ++ kwargs.map (fun kv => pyReprStr kv.1 ++ ": " ++ kv.2))
  fn.module ++ ":" ++ fn.qualname ++ "(" ++ repr_all_args ++ ")"

/-- The key format exactly as the claim words it: keyword arguments
rendered `<kw1>=<val1>`, positional arguments in call order, receiver
excluded when the first declared parameter is `self` or `cls`. -/
def claimKeyFormat (fn : PyFunc) (args : List String)
    (kwargs : List (String × String)) : String :=
  let isReceiver : Bool :=
    match fn.argnames with
    | [] => false
    | a0 :: _ => a0 = "self" ∨ a0 = "cls"
  let args1 := if isReceiver then args.drop 1 else args
  fn.module ++ ":" ++ fn.qualname ++ "(" ++
    pyJoin (args1 ++ kwargs.map (fun kv => kv.1 ++ "=" ++ kv.2)) ++ ")"

/-- Comma-joining written as a left fold, used to state the amended format
independently of `pyJoin`'s recursion. -/
def specJoin (l : List String) : String :=
  match l with
  | [] => ""
  | a :: rest => rest.foldl (fun acc x => acc ++ ", " ++ x) a

/-- The amended key format: as the claim, except each keyword argument is
rendered `repr(name): repr(value)` (that is, `\x27<kw>\x27: <val>`), not
`<kw>=<val>`. -/
def amendedKeyFormat (fn : PyFunc) (args : List String)
    (kwargs : List (String × String)) : String :=
  let args1 :=
    match fn.argnames with
    | [] => args
    | a0 :: _ => if a0 = "self" ∨ a0 = "cls" then args.drop 1 else args
  fn.module ++ ":" ++ fn.qualname ++ "(" ++
    specJoin (args1 ++ kwargs.map (fun kv => "\x27" ++ kv.1 ++ "\x27: " ++ kv.2)) ++ ")"

/-! Helper lemmas. -/

theorem lookupKey_insertReplace {β : Type} (s : List (Key × β)) (k : Key) (b : β) :
    lookupKey (insertReplace s k b) k = some b := by
  induction s with
  | nil => simp [insertReplace, lookupKey]
  | cons hd tl ih =>
    obtain ⟨k0, b0⟩ := hd
    by_cases hk : k = k0 <;> simp [insertReplace, lookupKey, hk, ih]

theorem liveAt_eq_true_iff (now : Time) (e : Option Time) :
    liveAt now e = true ↔ (e = Option.none ∨ ∃ x, e = some x ∧ now ≤ x) := by
  cases e <;> simp [liveAt, ge_iff_le]

/-! Claim theorems. -/

/-- Claim C1 (code bug): the spec and the abstract `Cache.get` contract say
`get` fails with `KeyError` on an entry present but expired; `DictCache.get`
instead falls through its `if` with no `raise` and returns Python `None`.
At the spec's own scenario (`put("a", 1, ttl=1)`, clock advanced to 2), the
embedded code yields `pyNone`, not `keyError`, while the fresh read at time
0 correctly returns the value. -/
theorem dictCache_get_expired_returns_pyNone :
    DictCache.get (DictCache.put ([] : Store Int) "a" 1 (some 1) 0) "a" 2
        = GetResult.pyNone ∧
    DictCache.get (DictCache.put ([] : Store Int) "a" 1 (some 1) 0) "a" 2
        ≠ GetResult.keyError ∧
    DictCache.get (DictCache.put ([] : Store Int) "a" 1 (some 1) 0) "a" 0
        = GetResult.value 1 := by
  refine ⟨rfl, by decide, rfl⟩

/-- Claim C2 (code bug): with `ttl = None` the resolved policy yields `None`
for every call (the source comment says "turn off caching"), but
`get_or_compute` still calls `cache.put(key, value, None)`, and
`DictCache.put` stores a never-expiring entry: a later `cache.get` of the
key returns the value instead of failing with `KeyError`. -/
theorem ttl_none_policy_still_stores :
    pyParseTtlFunction PyTtl.none = Except.ok TtlPolicy.noCache ∧
    TtlPolicy.apply TtlPolicy.noCache 0 = Option.none ∧
    (get_or_compute ([] : Store Int) "k" 0 42
        (TtlPolicy.apply TtlPolicy.noCache 0)).1
      = [("k", 42, Option.none)] ∧
    DictCache.get
        (get_or_compute ([] : Store Int) "k" 0 42
          (TtlPolicy.apply TtlPolicy.noCache 0)).1 "k" 1000000
      = GetResult.value 42 :=
  ⟨rfl, rfl, rfl, rfl⟩

/-- Claim C4 (code bug): the abstract contract and the spec say `remove` on
an absent key is a no-op, but `DictCache.remove` is `del self._data[key]`,
which raises `KeyError` when the key is absent. -/
theorem dictCache_remove_absent_raises :
    DictCache.remove ([] : Store Int) "foo" = RemoveResult.keyError ∧
    DictCache.remove [("bar", (1 : Int), Option.none)] "foo"
      = RemoveResult.keyError :=
  ⟨rfl, rfl⟩

/-- Claim C5 (code bug): passing a function as `ttl` is advertised by the
spec and by the source's own `ValueError` message, but the branch meant to
accept it repeats the 2-element-tuple guard and is unreachable, so a
function value falls through to the final `else` and `cached` raises
`ValueError` at construction. -/
theorem function_ttl_rejected :
    pyParseTtlFunction PyTtl.func
      = Except.error "TTL must be a None, constant, tuple(constant_min, constant_max), or function(fn, args, kwargs, value)" ∧
    cached PyTtl.func
      = Except.error "TTL must be a None, constant, tuple(constant_min, constant_max), or function(fn, args, kwargs, value)" :=
  ⟨rfl, rfl⟩

/-- Claim C7 (confirmed): after `put(key, value, ttl)` at clock time `now`,
the stored entry for `key` is `(value, now + ttl)` whatever was bound
before (full replacement of value and TTL), and `get(key)` returns the
value at every instant `t ≤ now + ttl` — the boundary `t = now + ttl` is
live, since the source tests `expires_at >= now`. -/
theorem put_then_get_within_ttl {α : Type} (s : Store α) (key : Key) (v : α)
    (ttl now t : Time) (_hpos : 0 < ttl) (ht : t ≤ now + ttl) :
    lookupKey (DictCache.put s key v (some ttl) now) key
      = some (v, some (now + ttl)) ∧
    DictCache.get (DictCache.put s key v (some ttl) now) key t
      = GetResult.value v := by
  have hl : lookupKey (DictCache.put s key v (some ttl) now) key
      = some (v, some (ttl + now)) := by
    simp [DictCache.put, lookupKey_insertReplace]
  constructor
  · rw [hl, Int.add_comm ttl now]
  · unfold DictCache.get
    rw [hl]
    have hle : t ≤ ttl + now := by rw [Int.add_comm]; exact ht
    have hlive : liveAt t (some (ttl + now)) = true :=
      (liveAt_eq_true_iff t (some (ttl + now))).mpr
        (Or.inr ⟨ttl + now, rfl, hle⟩)
    simp [hlive]

/-- Witness for `put_then_get_within_ttl` at a store where the key is
already bound to another value and TTL. -/
theorem put_then_get_within_ttl_witness :
    lookupKey (DictCache.put [("k", (7 : Int), some 3)] "k" 42 (some 10) 100) "k"
      = some (42, some (100 + 10)) ∧
    DictCache.get (DictCache.put [("k", (7 : Int), some 3)] "k" 42 (some 10) 100)
        "k" 110
      = GetResult.value 42 :=
  put_then_get_within_ttl [("k", (7 : Int), some 3)] "k" 42 10 100 110
    (by decide) (by decide)

/-- Claim C9 (confirmed): `remove_expired` at clock time `now` keeps exactly
the entries whose `expires_at` is `None` or `≥ now`, with value and expiry
unchanged; every entry expiring strictly before `now` is removed. -/
theorem remove_expired_exact {α : Type} (s : Store α) (now : Time) (k : Key)
    (v : α) (e : Option Time) :
    (k, v, e) ∈ DictCache.remove_expired s now ↔
      ((k, v, e) ∈ s ∧ (e = Option.none ∨ ∃ x, e = some x ∧ now ≤ x)) := by
  unfold DictCache.remove_expired
  rw [List.mem_filter]
  exact and_congr_right fun _ => liveAt_eq_true_iff now e

/-- Claim C10 (confirmed): `data` is read-only — the backend's stored
mapping is returned unchanged, expired entries included — and its result
contains exactly the key-value pairs of the live (non-expired) entries. -/
theorem data_readonly_live_restriction {α : Type} (s : Store α) (now : Time)
    (k : Key) (v : α) :
    (DictCache.data s now).1 = s ∧
    ((k, v) ∈ (DictCache.data s now).2 ↔
      ∃ e, (k, v, e) ∈ s ∧ (e = Option.none ∨ ∃ x, e = some x ∧ now ≤ x)) := by
  constructor
  · rfl
  · constructor
    · intro h
      rw [DictCache.data, List.mem_map] at h
      obtain ⟨⟨k0, v0, e0⟩, hmem, heq⟩ := h
      rw [List.mem_filter] at hmem
      obtain ⟨hk, hv⟩ := Prod.mk.injEq .. ▸ heq
      exact ⟨e0, by rw [← hk, ← hv]; exact hmem.1,
        (liveAt_eq_true_iff now e0).mp hmem.2⟩
    · rintro ⟨e, hmem, hlive⟩
      rw [DictCache.data, List.mem_map]
      exact ⟨(k, v, e),
        List.mem_filter.mpr ⟨hmem, (liveAt_eq_true_iff now e).mpr hlive⟩, rfl⟩

/-- A duration constant in the sense of the claim: an `int`/`float` or a
`datetime.timedelta`, never `None`. -/
def isDurationB : PyTtl → Bool
  | PyTtl.num _ => true
  | PyTtl.timedelta _ => true
  | _ => false

/-- A TTL specification the claim calls valid: `None`, a numeric or
timedelta constant, a two-element tuple of non-None durations, or a
function. -/
def isValidTtlSpecB : PyTtl → Bool
  | PyTtl.none => true
  | PyTtl.num _ => true
  | PyTtl.timedelta _ => true
  | PyTtl.func => true
  | PyTtl.tuple [a, b] => isDurationB a && isDurationB b
  | _ => false

/-- Claim C8 (confirmed): any invalid TTL specification — including a
(min, max) range containing `None` — makes `cached` fail with `ValueError`
at construction, before any memoized call exists, because
`_parse_ttl_function` is the first statement of `cached`'s body. -/
theorem invalid_ttl_rejected_at_construction (t : PyTtl)
    (h : isValidTtlSpecB t = false) :
    ∃ msg, cached t = Except.error msg := by
  cases t with
  | none => simp [isValidTtlSpecB] at h
  | num n => simp [isValidTtlSpecB] at h
  | timedelta s => simp [isValidTtlSpecB] at h
  | func => simp [isValidTtlSpecB] at h
  | other => exact ⟨_, rfl⟩
  | tuple es =>
    rcases es with _ | ⟨a, _ | ⟨b, _ | ⟨c, rest⟩⟩⟩
    · exact ⟨_, rfl⟩
    · exact ⟨_, rfl⟩
    · cases a <;> cases b <;>
        first
          | exact ⟨_, rfl⟩
          | simp [isValidTtlSpecB, isDurationB] at h
    · exact ⟨_, rfl⟩

/-- Witness for `invalid_ttl_rejected_at_construction`: a (min, max) range
containing `None` is rejected when the memoizer is constructed. -/
theorem invalid_ttl_rejected_at_construction_witness :
    ∃ msg, cached (PyTtl.tuple [PyTtl.none, PyTtl.num 5]) = Except.error msg :=
  invalid_ttl_rejected_at_construction (PyTtl.tuple [PyTtl.none, PyTtl.num 5])
    rfl

/-- Once a task is pending for the key, further arrivals reuse it and
change nothing. -/
theorem flightArriveN_pending (m : Nat) (st : FlightState) (t : Nat)
    (hp : st.pending = some t) :
    flightArriveN st m = (st, List.replicate m t) := by
  induction m with
  | zero => simp [flightArriveN]
  | succ n ih => simp [flightArriveN, flightArrive, hp, ih, List.replicate]

/-- Claim C3 (confirmed): starting with no pending task for the key (no
cached value exists, nothing in flight), N ≥ 1 invocations of the wrapper
going through the lock-serialized lookup-or-register block create exactly
one task — one execution of `get_or_compute`, hence one execution of the
wrapped function — and every one of the N invocations awaits that same
task, so all observe the single execution's result, value or failure. -/
theorem single_flight_one_execution (n i : Nat) (h : 1 ≤ n) :
    (flightArriveN ⟨Option.none, i, []⟩ n).1.created = [i] ∧
    (flightArriveN ⟨Option.none, i, []⟩ n).2 = List.replicate n i := by
  obtain ⟨m, rfl⟩ : ∃ m, n = m + 1 := ⟨n - 1, (Nat.succ_pred_eq_of_pos h).symm⟩
  have h1 : flightArrive ⟨Option.none, i, []⟩ = (⟨some i, i + 1, [i]⟩, i) := rfl
  have h2 : flightArriveN (⟨some i, i + 1, [i]⟩ : FlightState) m
      = (⟨some i, i + 1, [i]⟩, List.replicate m i) :=
    flightArriveN_pending m ⟨some i, i + 1, [i]⟩ i rfl
  simp [flightArriveN, h1, h2, List.replicate]

/-- Witness for `single_flight_one_execution` with three concurrent
invocations. -/
theorem single_flight_one_execution_witness :
    (flightArriveN ⟨Option.none, 0, []⟩ 3).1.created = [0] ∧
    (flightArriveN ⟨Option.none, 0, []⟩ 3).2 = List.replicate 3 0 :=
  single_flight_one_execution 3 0 (by decide)

/-- The `", ".join` recursion agrees with the left-fold formulation used in
the amended key format. -/
theorem pyJoin_eq_specJoin (l : List String) : pyJoin l = specJoin l := by
  have aux : ∀ (t : List String) (a : String),
      pyJoin (a :: t) = t.foldl (fun acc x => acc ++ ", " ++ x) a := by
    intro t
    induction t with
    | nil => intro a; rfl
    | cons b t2 ih =>
      intro a
      have step : pyJoin (a :: b :: t2) = pyJoin ((a ++ ", " ++ b) :: t2) := by
        cases t2 with
        | nil => rfl
        | cons c t3 => simp [pyJoin, String.append_assoc]
      rw [step, ih (a ++ ", " ++ b)]
      rfl
  cases l with
  | nil => rfl
  | cons a t => rw [aux t a]; rfl

/-- Merging the closing quote of a keyword name with the following colon
separator. -/
theorem quote_colon_append (x : String) :
    "\x27" ++ (": " ++ x) = "\x27: " ++ x := by
  rw [← String.append_assoc]
  have h : ("\x27" : String) ++ ": " = "\x27: " := by decide
  rw [h]

/-- Claim C6, counterexample: for `m.f(x, y)` called as `f(1, y=2)` the
source key maker renders the keyword argument as `repr(name): repr(value)`
(`f"{repr(key)}: {repr(value)}"` in the source), so the produced key
differs from the claim's `<kw1>=<val1>` format. -/
theorem reprKeyMaker_kwarg_format_counterexample :
    ReprKeyMaker.call ⟨"m", "f", ["x", "y"]⟩ ["1"] [("y", "2")]
        = "m:f(1, \x27y\x27: 2)" ∧
    claimKeyFormat ⟨"m", "f", ["x", "y"]⟩ ["1"] [("y", "2")]
        = "m:f(1, y=2)" ∧
    ReprKeyMaker.call ⟨"m", "f", ["x", "y"]⟩ ["1"] [("y", "2")]
        ≠ claimKeyFormat ⟨"m", "f", ["x", "y"]⟩ ["1"] [("y", "2")] := by
  refine ⟨rfl, rfl, by decide⟩

/-- Claim C6, amended (proved): the reference key maker returns
`"<module>:<qualifiedName>(<arg1>, <arg2>, ..., \x27<kw1>\x27: <val1>, ...)"`
— each argument by its canonical textual representation, positional
arguments in call order, then keyword arguments in insertion order rendered
`repr(name): repr(value)` — and when the callable's first declared
parameter is `self` or `cls` the first positional argument is excluded. -/
theorem reprKeyMaker_amended_format (fn : PyFunc) (args : List String)
    (kwargs : List (String × String)) :
    ReprKeyMaker.call fn args kwargs = amendedKeyFormat fn args kwargs := by
  unfold ReprKeyMaker.call amendedKeyFormat pyReprStr
  cases hn : fn.argnames with
  | nil => simp [pyJoin_eq_specJoin, String.append_assoc, quote_colon_append]
  | cons a0 rest =>
    by_cases hrecv : a0 = "self" ∨ a0 = "cls" <;>
      simp [hrecv, pyJoin_eq_specJoin, String.append_assoc, quote_colon_append]

end Aiocache
